import Mathlib
/-!
Verification of the `internal/reflection` module of the fulfillment-cli
repository: discovery of CRUD resources from protocol-buffers service
descriptors, the resource registry operations (`Singulars`, `Plurals`,
`Lookup`) and the per-object operations (`List`, `Get`, `Update`, and the
`Delete`/`Create` operations whose bodies are not part of the provided
sources and are therefore modelled from the spec).

The embedding is shallow: descriptors become plain Lean structures,
dynamic protobuf messages become association lists from field names to
values, the gRPC transport becomes a function from a method path and a
request message to either an error or a response message, and the
pluralizer (an external library) becomes a function parameter.
-/

/-! ## Strings: lower-casing and byte order

Go's `strings.ToLower`, `strings.EqualFold` and `sort.Strings` are modelled
on the character list of the string.  `sort.Strings` compares strings
byte-wise; on valid UTF-8 the byte order agrees with the code-point order
used here. -/

/-- Model of Go `strings.ToLower` (character-wise lower-casing). -/
def strLower (s : String) : String := String.mk (s.data.map Char.toLower)

/-- Model of Go `strings.EqualFold`: equality up to case folding. -/
def eqFold (a b : String) : Bool := strLower a == strLower b

/-- Lexicographic order on character lists by code point, the order used by
Go `sort.Strings`. -/
def charsLe : List Char → List Char → Bool
  | [], _ => true
  | _ :: _, [] => false
  | a :: as, b :: bs =>
    if a.toNat < b.toNat then true
    else if b.toNat < a.toNat then false
    else charsLe as bs

/-- String order used by `sort.Strings`, as a proposition. -/
def strOrd (a b : String) : Prop := charsLe a.data b.data = true

instance : DecidableRel strOrd := fun a b => by unfold strOrd; infer_instance

instance : IsTotal String strOrd :=
  ⟨fun a b => by
    have H : ∀ x y : List Char, charsLe x y = true ∨ charsLe y x = true := by
      intro x
      induction x with
      | nil => intro y; left; rfl
      | cons a as ih =>
        intro y
        cases y with
        | nil => right; rfl
        | cons b bs =>
          simp only [charsLe]
          rcases Nat.lt_trichotomy a.toNat b.toNat with h | h | h
          · left; simp [h]
          · have h1 : ¬ a.toNat < b.toNat := by omega
            have h2 : ¬ b.toNat < a.toNat := by omega
            rcases ih bs with hc | hc
            · left; simp [h1, h2, hc]
            · right; simp [h1, h2, hc]
          · right; simp [h]
    exact H a.data b.data⟩

instance : IsTrans String strOrd :=
  ⟨fun a b c => by
    have H : ∀ x y z : List Char,
        charsLe x y = true → charsLe y z = true → charsLe x z = true := by
      intro x
      induction x with
      | nil => intro y z _ _; rfl
      | cons a as ih =>
        intro y z hxy hyz
        cases y with
        | nil => simp [charsLe] at hxy
        | cons b bs =>
          cases z with
          | nil => simp [charsLe] at hyz
          | cons c cs =>
            simp only [charsLe] at hxy hyz ⊢
            rcases Nat.lt_trichotomy a.toNat b.toNat with hab | hab | hab
            · rcases Nat.lt_trichotomy b.toNat c.toNat with hbc | hbc | hbc
              · simp [show a.toNat < c.toNat by omega]
              · simp [show a.toNat < c.toNat by omega]
              · simp [show ¬ b.toNat < c.toNat by omega,
                  show c.toNat < b.toNat by omega] at hyz
            · rcases Nat.lt_trichotomy b.toNat c.toNat with hbc | hbc | hbc
              · simp [show a.toNat < c.toNat by omega]
              · have h1 : ¬ a.toNat < b.toNat := by omega
                have h2 : ¬ b.toNat < a.toNat := by omega
                have h3 : ¬ b.toNat < c.toNat := by omega
                have h4 : ¬ c.toNat < b.toNat := by omega
                simp only [if_neg h1, if_neg h2] at hxy
                simp only [if_neg h3, if_neg h4] at hyz
                have h5 : ¬ a.toNat < c.toNat := by omega
                have h6 : ¬ c.toNat < a.toNat := by omega
                simp only [if_neg h5, if_neg h6]
                exact ih bs cs hxy hyz
              · simp [show ¬ b.toNat < c.toNat by omega,
                  show c.toNat < b.toNat by omega] at hyz
            · simp [show ¬ a.toNat < b.toNat by omega,
                show b.toNat < a.toNat by omega] at hxy
    exact H a.data b.data c.data⟩

/-- Model of Go `sort.Strings`: ascending lexicographic sort.  Insertion
sort is used; since equal strings are identical, the sorted result is the
unique ascending permutation, independent of the sorting algorithm. -/
def sortStrings (l : List String) : List String := List.insertionSort strOrd l

/-! ## Schema registry data model

Mirrors the protoreflect descriptors used by the reflection module:
services with methods, messages with fields, fields with a name, a
cardinality, a kind and (for message-kind fields) the referenced message
type.  Message descriptors are compared by identity in the Go code; two
descriptors in one registry are identical iff their full names agree, so a
message type is identified here by its short name and full name. -/
inductive Cardinality where
  | optionalCard : Cardinality
  | requiredCard : Cardinality
  | repeatedCard : Cardinality
deriving DecidableEq

inductive FieldKind where
  | stringKind : FieldKind
  | messageKind : FieldKind
  | otherKind : FieldKind
deriving DecidableEq

/-- Identity of a message type: short name (`Descriptor.Name`) and full
name (`Descriptor.FullName`, the registry-wide identity key). -/
structure MsgRef where
  name : String
  fullName : String
deriving DecidableEq

/-- A field descriptor.  `message` is the message type referenced by the
field; it is meaningful only when `kind = messageKind` (the Go
`FieldDescriptor.Message()` returns nil otherwise, and the code only reads
it after checking the kind). -/
structure FieldDesc where
  fname : String
  cardinality : Cardinality
  kind : FieldKind
  message : MsgRef
deriving DecidableEq

structure MessageDesc where
  ref : MsgRef
  fields : List FieldDesc
deriving DecidableEq

structure MethodDesc where
  mname : String
  input : MessageDesc
  output : MessageDesc
deriving DecidableEq

structure ServiceDesc where
  fullName : String
  methods : List MethodDesc
deriving DecidableEq

/-- `Methods().ByName`: look a method up by exact (case-sensitive) name. -/
def byName (ms : List MethodDesc) (n : String) : Option MethodDesc :=
  ms.find? (fun m => m.mname == n)

/-- `Fields().ByName`: look a field up by exact (case-sensitive) name. -/
def fieldByName (fs : List FieldDesc) (n : String) : Option FieldDesc :=
  fs.find? (fun f => f.fname == n)

/-! ## Dynamic messages

A protobuf message value is an association list from field names to
values.  `Get` on an unset string/message/list field yields the protobuf
defaults: empty string, empty message, empty list. -/
inductive MsgVal where
  | vstr : String → MsgVal
  | vmsg : List (String × MsgVal) → MsgVal
  | vlist : List (List (String × MsgVal)) → MsgVal

abbrev MsgData := List (String × MsgVal)

def msgGetField (m : MsgData) (f : String) : Option MsgVal :=
  (m.find? (fun p => p.1 == f)).map (fun p => p.2)

/-- `ProtoReflect().Set`: replace the value of the named field. -/
def msgSet (m : MsgData) (f : String) (v : MsgVal) : MsgData :=
  (f, v) :: m.filter (fun p => p.1 != f)

/-- `Get(field).Message()` for a singular message field (empty message when
the field is unset). -/
def msgGetMsg (m : MsgData) (f : String) : MsgData :=
  match msgGetField m f with
  | some (MsgVal.vmsg x) => x
  | _ => []

/-- `Get(field).List()` for a repeated message field (empty list when the
field is unset). -/
def msgGetList (m : MsgData) (f : String) : List MsgData :=
  match msgGetField m f with
  | some (MsgVal.vlist x) => x
  | _ => []

/-! ## Field-shape checks (`Helper.getIdField` and friends)

Each mirrors the corresponding Go function exactly, including which
cardinality comparison is used (`!= Optional` for id/object fields but
`== Repeated` for the filter field). -/
def getIdField (m : MessageDesc) : Option FieldDesc :=
  match fieldByName m.fields "id" with
  | none => none
  | some fieldDesc =>
    if fieldDesc.cardinality ≠ Cardinality.optionalCard then none
    else if fieldDesc.kind ≠ FieldKind.stringKind then none
    else some fieldDesc

def getObjectField (m : MessageDesc) : Option FieldDesc :=
  match fieldByName m.fields "object" with
  | none => none
  | some fieldDesc =>
    if fieldDesc.cardinality ≠ Cardinality.optionalCard then none
    else if fieldDesc.kind ≠ FieldKind.messageKind then none
    else some fieldDesc

def getFilterField (m : MessageDesc) : Option FieldDesc :=
  match fieldByName m.fields "filter" with
  | none => none
  | some fieldDesc =>
    if fieldDesc.cardinality = Cardinality.repeatedCard then none
    else if fieldDesc.kind ≠ FieldKind.stringKind then none
    else some fieldDesc

def getItemsField (m : MessageDesc) : Option FieldDesc :=
  match fieldByName m.fields "items" with
  | none => none
  | some fieldDesc =>
    if fieldDesc.cardinality ≠ Cardinality.repeatedCard then none
    else if fieldDesc.kind ≠ FieldKind.messageKind then none
    else some fieldDesc

/-! ## Resource descriptors (`ObjectHelper` and its parts) -/
structure methodInfo where
  path : String
  request : MsgData
  response : MsgData

structure getInfo where
  method : methodInfo
  id : FieldDesc
  object : FieldDesc

structure listInfo where
  method : methodInfo
  filter : FieldDesc
  items : FieldDesc

/-- The two object fields are named `in` and `out` in the source; `in` is
reserved here. -/
structure updateInfo where
  method : methodInfo
  inField : FieldDesc
  outField : FieldDesc

structure deleteInfo where
  method : methodInfo
  id : FieldDesc

/-- A discovered resource descriptor (the data part of the Go
`ObjectHelper`; its `parent` back-pointer carries the connection, which is
the `invoke` parameter of the operations below). -/
structure ObjectHelper where
  descriptor : MsgRef
  template : MsgData
  list : listInfo
  get : getInfo
  update : updateInfo
  delete : deleteInfo

/-- `makeMethodPath`: `/<service full name>/<method name>`. -/
def makeMethodPath (svc : ServiceDesc) (m : MethodDesc) : String :=
  "/" ++ svc.fullName ++ "/" ++ m.mname

/-- `makeTemplate`: a blank instance of a message type.  The Go code
resolves the concrete generated type through the global type registry and
panics when the registries are inconsistent; the registries built by
generated code are consistent by construction and no claim concerns that
path, so the blank dynamic message is used directly. -/
def makeTemplate (_ : MsgRef) : MsgData := []

/-- Outcome of `Helper.scanService` on one service: the service is
silently skipped, the scan crashes with a nil-pointer dereference, or a
resource descriptor is produced. -/
inductive ScanResult where
  | skip : ScanResult
  | panic : ScanResult
  | accept : ObjectHelper → ScanResult

/-- `Helper.scanService`, translated check by check and in source order.
Note the one asymmetry, faithful to the source: after
`getObjectField(getDesc.Output())` the source does not test the result for
nil before calling `.Message()` on it, so a `Get` response without a valid
`object` field dereferences a nil interface (modelled as `panic`), while
every other failed check returns early (modelled as `skip`). -/
def scanService (svc : ServiceDesc) : ScanResult :=
  match byName svc.methods "List" with
  | none => ScanResult.skip
  | some listDesc =>
  match byName svc.methods "Get" with
  | none => ScanResult.skip
  | some getDesc =>
  match byName svc.methods "Update" with
  | none => ScanResult.skip
  | some updateDesc =>
  match byName svc.methods "Delete" with
  | none => ScanResult.skip
  | some deleteDesc =>
  match getIdField getDesc.input with
  | none => ScanResult.skip
  | some getRequestIdFieldDesc =>
  match getObjectField getDesc.output with
  | none => ScanResult.panic
  | some getResponseObjectFieldDesc =>
  let objectDesc := getResponseObjectFieldDesc.message
  match getFilterField listDesc.input with
  | none => ScanResult.skip
  | some listRequestFilterFieldDesc =>
  match getItemsField listDesc.output with
  | none => ScanResult.skip
  | some listResponseItemsFieldDesc =>
  if listResponseItemsFieldDesc.message ≠ objectDesc then ScanResult.skip else
  match getObjectField updateDesc.input with
  | none => ScanResult.skip
  | some updateRequestObjectFieldDesc =>
  if updateRequestObjectFieldDesc.message ≠ objectDesc then ScanResult.skip else
  match getObjectField updateDesc.output with
  | none => ScanResult.skip
  | some updateResponseObjectFieldDesc =>
  if updateResponseObjectFieldDesc.message ≠ objectDesc then ScanResult.skip else
  match getIdField deleteDesc.input with
  | none => ScanResult.skip
  | some deleteRequestIdFieldDesc =>
  ScanResult.accept
    { descriptor := objectDesc
      template := makeTemplate objectDesc
      get :=
        { method :=
            { path := makeMethodPath svc getDesc
              request := makeTemplate getDesc.input.ref
              response := makeTemplate getDesc.output.ref }
          id := getRequestIdFieldDesc
          object := getResponseObjectFieldDesc }
      list :=
        { method :=
            { path := makeMethodPath svc listDesc
              request := makeTemplate listDesc.input.ref
              response := makeTemplate listDesc.output.ref }
          filter := listRequestFilterFieldDesc
          items := listResponseItemsFieldDesc }
      update :=
        { method :=
            { path := makeMethodPath svc updateDesc
              request := makeTemplate updateDesc.input.ref
              response := makeTemplate updateDesc.output.ref }
          inField := updateRequestObjectFieldDesc
          outField := updateResponseObjectFieldDesc }
      delete :=
        { method :=
            { path := makeMethodPath svc deleteDesc
              request := makeTemplate deleteDesc.input.ref
              response := makeTemplate deleteDesc.output.ref }
          id := deleteRequestIdFieldDesc } }

/-- `Helper.scan` over the services of the registry, in enumeration order.
A panic in any `scanService` call aborts the whole scan (`none`); otherwise
the accepted descriptors are appended in order. -/
def scan (svcs : List ServiceDesc) : Option (List ObjectHelper) :=
  svcs.foldl
    (fun acc svc =>
      match acc with
      | none => none
      | some hs =>
        match scanService svc with
        | ScanResult.skip => some hs
        | ScanResult.panic => none
        | ScanResult.accept h => some (hs ++ [h]))
    (some [])

/-! ## Resource registry operations

The pluralizer is the external go-pluralize client; it enters the model as
a function parameter `pl`.  The registry state is the list of discovered
`ObjectHelper`s, in insertion (discovery) order. -/

/-- `Helper.Singulars`: lower-cased short names of all discovered
resources, sorted ascending. -/
def Singulars (helpers : List ObjectHelper) : List String :=
  sortStrings (helpers.map (fun o => strLower o.descriptor.name))

/-- `Helper.Plurals`: pluralized lower-cased short names, sorted
ascending. -/
def Plurals (pl : String → String) (helpers : List ObjectHelper) : List String :=
  sortStrings (helpers.map (fun o => pl (strLower o.descriptor.name)))

/-- `Helper.Lookup`: first helper, in insertion order, whose lower-cased
singular name or pluralized singular name equals the argument up to case;
`none` when there is no match. -/
def Lookup (pl : String → String) (objectType : String) :
    List ObjectHelper → Option ObjectHelper
  | [] => none
  | o :: rest =>
    let singular := strLower o.descriptor.name
    if eqFold objectType singular then some o
    else if eqFold objectType (pl singular) then some o
    else Lookup pl objectType rest

/-! ## Object operations

The transport is the gRPC connection's `Invoke`: given a method path and a
request it either populates a response (`Except.ok`) or fails
(`Except.error`) leaving the cloned blank response untouched.  Each Go
operation returns a (result, err) pair of nilable values, modelled with
`Option` on both sides. -/
abbrev Transport := String → MsgData → Except String MsgData

structure ListOptions where
  Filter : String

/-- `ObjectHelper.List`: clone the List request template, set the filter
field only when the option is non-empty, invoke once; on error return
(nil, err), on success return the `items` of the response in server
order. -/
def ObjectHelper.List (h : ObjectHelper) (invoke : Transport) (options : ListOptions) :
    Option (List MsgData) × Option String :=
  let request := h.list.method.request
  let request :=
    if options.Filter ≠ "" then
      msgSet request h.list.filter.fname (MsgVal.vstr options.Filter)
    else request
  match invoke h.list.method.path request with
  | Except.error e => (none, some e)
  | Except.ok resp => (some (msgGetList resp h.list.items.fname), none)

/-- `ObjectHelper.Get`: clone the Get request template, set `id`, invoke
once; on error return (nil, err), on success return the `object` field of
the response. -/
def ObjectHelper.Get (c : ObjectHelper) (invoke : Transport) (id : String) :
    Option MsgData × Option String :=
  let request := msgSet c.get.method.request c.get.id.fname (MsgVal.vstr id)
  match invoke c.get.method.path request with
  | Except.error e => (none, some e)
  | Except.ok resp => (some (msgGetMsg resp c.get.object.fname), none)

/-- `ObjectHelper.Update`: clone the Update request template, set its
`object` field, invoke once.  On error the source wraps the error but does
not return early, so the result is still read from the `object` field of
the cloned blank response template. -/
def ObjectHelper.Update (c : ObjectHelper) (invoke : Transport) (object : MsgData) :
    Option MsgData × Option String :=
  let request := msgSet c.update.method.request c.update.inField.fname (MsgVal.vmsg object)
  let response := c.update.method.response
  match invoke c.update.method.path request with
  | Except.error e =>
    (some (msgGetMsg response c.update.outField.fname),
     some ("failed to update object: " ++ e))
  | Except.ok resp => (some (msgGetMsg resp c.update.outField.fname), none)

/-- Modelled from the spec: the body of `ObjectHelper.Delete` is not among
the provided sources (only its caller, the `delete` command, is).  Per the
spec it is symmetric to `Get` using the `id` field of the Delete request
template: clone the template, set `id`, invoke the Delete method path, and
propagate the transport outcome. -/
def ObjectHelper.Delete (c : ObjectHelper) (invoke : Transport) (id : String) :
    Option String :=
  let request := msgSet c.delete.method.request c.delete.id.fname (MsgVal.vstr id)
  match invoke c.delete.method.path request with
  | Except.error e => some e
  | Except.ok _ => none

/-- Modelled from the spec: metadata for the optional `Create` method.  The
provided discovery source records nothing about `Create`; per the spec a
`Create` method is recorded when its request and response have an `object`
field of the object type, and its absence does not disqualify the
resource. -/
structure createInfo where
  method : methodInfo
  inField : FieldDesc
  outField : FieldDesc

/-- Modelled from the spec: discovery of the optional `Create` method of a
service whose object type is `objectDesc`, following the same shape checks
as `Update`. -/
def scanServiceCreate (svc : ServiceDesc) (objectDesc : MsgRef) : Option createInfo :=
  match byName svc.methods "Create" with
  | none => none
  | some createDesc =>
  match getObjectField createDesc.input with
  | none => none
  | some createRequestObjectFieldDesc =>
  if createRequestObjectFieldDesc.message ≠ objectDesc then none else
  match getObjectField createDesc.output with
  | none => none
  | some createResponseObjectFieldDesc =>
  if createResponseObjectFieldDesc.message ≠ objectDesc then none else
  some
    { method :=
        { path := makeMethodPath svc createDesc
          request := makeTemplate createDesc.input.ref
          response := makeTemplate createDesc.output.ref }
      inField := createRequestObjectFieldDesc
      outField := createResponseObjectFieldDesc }

/-- Modelled from the spec: the body of `ObjectHelper.Create` is not among
the provided sources (only its caller, the `create` command, is).  Per the
spec it is symmetric to `Update`: clone the Create request template, set
its `object` field, invoke the Create method path, and return the
response's `object` field. -/
def ObjectHelper.Create (ci : createInfo) (invoke : Transport) (object : MsgData) :
    Option MsgData × Option String :=
  let request := msgSet ci.method.request ci.inField.fname (MsgVal.vmsg object)
  match invoke ci.method.path request with
  | Except.error e => (none, some e)
  | Except.ok resp => (some (msgGetMsg resp ci.outField.fname), none)

/-! ## Spec-side request characterizations

Definitions written from the spec's words, used to compare the operations
above (which are translated from the source) against the specified
behaviour. -/

/-- The request the spec says `List` sends: the blank List request
template, with `filter` set exactly when a non-empty filter was
supplied. -/
def listRequestSpec (h : ObjectHelper) (options : ListOptions) : MsgData :=
  if options.Filter = "" then h.list.method.request
  else msgSet h.list.method.request h.list.filter.fname (MsgVal.vstr options.Filter)

/-- The request the spec says `Get` sends: the Get request template with
`id` set. -/
def getRequestSpec (h : ObjectHelper) (id : String) : MsgData :=
  msgSet h.get.method.request h.get.id.fname (MsgVal.vstr id)

/-- The request the spec says `Update` sends: the Update request template
with `object` set to the caller's object. -/
def updateRequestSpec (h : ObjectHelper) (object : MsgData) : MsgData :=
  msgSet h.update.method.request h.update.inField.fname (MsgVal.vmsg object)

/-- The request the spec says `Delete` sends: the Delete request template
with `id` set. -/
def deleteRequestSpec (h : ObjectHelper) (id : String) : MsgData :=
  msgSet h.delete.method.request h.delete.id.fname (MsgVal.vstr id)

/-! ## Spec-side shape conditions

Predicates written from the claim wording, used to state the registry
characterization.  Two readings of "singular" appear: the claim glosses
`filter` as "non-repeated" while the code demands exactly optional
cardinality for the `id`/`object` fields, so both forms are defined. -/

/-- The message has a field of the given name, of optional cardinality and
string kind. -/
def optStringFieldNamed (m : MessageDesc) (n : String) : Prop :=
  ∃ f, fieldByName m.fields n = some f ∧
    f.cardinality = Cardinality.optionalCard ∧ f.kind = FieldKind.stringKind

/-- The message has a field of the given name, of optional cardinality and
message kind, referring to `obj`. -/
def optMsgFieldNamed (m : MessageDesc) (n : String) (obj : MsgRef) : Prop :=
  ∃ f, fieldByName m.fields n = some f ∧
    f.cardinality = Cardinality.optionalCard ∧ f.kind = FieldKind.messageKind ∧
    f.message = obj

/-- The message has a non-repeated string field of the given name (the
claim's "singular"/"non-repeated" reading). -/
def nonRepStringFieldNamed (m : MessageDesc) (n : String) : Prop :=
  ∃ f, fieldByName m.fields n = some f ∧
    f.cardinality ≠ Cardinality.repeatedCard ∧ f.kind = FieldKind.stringKind

/-- The message has a non-repeated message field of the given name,
referring to `obj`. -/
def nonRepMsgFieldNamed (m : MessageDesc) (n : String) (obj : MsgRef) : Prop :=
  ∃ f, fieldByName m.fields n = some f ∧
    f.cardinality ≠ Cardinality.repeatedCard ∧ f.kind = FieldKind.messageKind ∧
    f.message = obj

/-- The message has a repeated message field of the given name, referring
to `obj`. -/
def repMsgFieldNamed (m : MessageDesc) (n : String) (obj : MsgRef) : Prop :=
  ∃ f, fieldByName m.fields n = some f ∧
    f.cardinality = Cardinality.repeatedCard ∧ f.kind = FieldKind.messageKind ∧
    f.message = obj

/-- The conditions of the claim as stated, reading "singular" as the
spec's "non-repeated": the four methods exist and all field shapes
match. -/
def claimConditions (svc : ServiceDesc) : Prop :=
  ∃ g, byName svc.methods "Get" = some g ∧
  ∃ l, byName svc.methods "List" = some l ∧
  ∃ u, byName svc.methods "Update" = some u ∧
  ∃ dm, byName svc.methods "Delete" = some dm ∧
  nonRepStringFieldNamed g.input "id" ∧
  ∃ obj, nonRepMsgFieldNamed g.output "object" obj ∧
    nonRepStringFieldNamed l.input "filter" ∧
    repMsgFieldNamed l.output "items" obj ∧
    nonRepMsgFieldNamed u.input "object" obj ∧
    nonRepMsgFieldNamed u.output "object" obj ∧
    nonRepStringFieldNamed dm.input "id"

/-- The conditions the code actually enforces for acceptance: the four
methods exist, `id`/`object` fields have exactly optional cardinality,
`filter` is non-repeated, `items` is repeated, and the object types
agree. -/
def resourceConditions (svc : ServiceDesc) : Prop :=
  ∃ g, byName svc.methods "Get" = some g ∧
  ∃ l, byName svc.methods "List" = some l ∧
  ∃ u, byName svc.methods "Update" = some u ∧
  ∃ dm, byName svc.methods "Delete" = some dm ∧
  optStringFieldNamed g.input "id" ∧
  ∃ obj, optMsgFieldNamed g.output "object" obj ∧
    nonRepStringFieldNamed l.input "filter" ∧
    repMsgFieldNamed l.output "items" obj ∧
    optMsgFieldNamed u.input "object" obj ∧
    optMsgFieldNamed u.output "object" obj ∧
    optStringFieldNamed dm.input "id"

/-- The conditions under which the scan crashes: the four methods exist,
the Get request `id` check passes, and the Get response has no valid
`object` field (the dereferenced-nil case). -/
def panicConditions (svc : ServiceDesc) : Prop :=
  ∃ g, byName svc.methods "Get" = some g ∧
  (∃ l, byName svc.methods "List" = some l) ∧
  (∃ u, byName svc.methods "Update" = some u) ∧
  (∃ dm, byName svc.methods "Delete" = some dm) ∧
  optStringFieldNamed g.input "id" ∧
  ¬ ∃ obj, optMsgFieldNamed g.output "object" obj

/-- A scan outcome is an acceptance. -/
def isAccept : ScanResult → Prop
  | ScanResult.accept _ => True
  | _ => False

/-! ## Concrete schema fixtures

A small schema in the shape of the fulfillment API: conforming `Clusters`
and `ClusterOrders` services, plus deliberately deviating services used to
exercise the failure paths. -/

/-- Placeholder reference for fields that are not of message kind (the Go
`Message()` accessor returns nil there and is never read). -/
def noMsg : MsgRef := { name := "", fullName := "" }

def stringField (n : String) : FieldDesc :=
  { fname := n, cardinality := Cardinality.optionalCard, kind := FieldKind.stringKind,
    message := noMsg }

def msgField (n : String) (r : MsgRef) : FieldDesc :=
  { fname := n, cardinality := Cardinality.optionalCard, kind := FieldKind.messageKind,
    message := r }

def repeatedMsgField (n : String) (r : MsgRef) : FieldDesc :=
  { fname := n, cardinality := Cardinality.repeatedCard, kind := FieldKind.messageKind,
    message := r }

/-- A request/response message descriptor of a service in package `pkg`. -/
def rpcMsg (pkg svcName suffix : String) (fs : List FieldDesc) : MessageDesc :=
  { ref := { name := svcName ++ suffix, fullName := pkg ++ "." ++ svcName ++ suffix }
    fields := fs }

/-- A fully conforming CRUD service for object type `obj`. -/
def mkCrudSvc (pkg svcName : String) (obj : MsgRef) : ServiceDesc :=
  { fullName := pkg ++ "." ++ svcName
    methods :=
      [ { mname := "Get"
          input := rpcMsg pkg svcName "GetRequest" [stringField "id"]
          output := rpcMsg pkg svcName "GetResponse" [msgField "object" obj] }
      , { mname := "List"
          input := rpcMsg pkg svcName "ListRequest" [stringField "filter"]
          output := rpcMsg pkg svcName "ListResponse" [repeatedMsgField "items" obj] }
      , { mname := "Update"
          input := rpcMsg pkg svcName "UpdateRequest" [msgField "object" obj]
          output := rpcMsg pkg svcName "UpdateResponse" [msgField "object" obj] }
      , { mname := "Delete"
          input := rpcMsg pkg svcName "DeleteRequest" [stringField "id"]
          output := rpcMsg pkg svcName "DeleteResponse" [] } ] }

def clusterRef : MsgRef := { name := "Cluster", fullName := "fulfillment.v1.Cluster" }

def clusterOrderRef : MsgRef :=
  { name := "ClusterOrder", fullName := "fulfillment.v1.ClusterOrder" }

/-- A second object type with the same short name in another package. -/
def otherClusterRef : MsgRef := { name := "Cluster", fullName := "other.v1.Cluster" }

def clustersSvc : ServiceDesc := mkCrudSvc "fulfillment.v1" "Clusters" clusterRef

def clusterOrdersSvc : ServiceDesc :=
  mkCrudSvc "fulfillment.v1" "ClusterOrders" clusterOrderRef

def otherClustersSvc : ServiceDesc := mkCrudSvc "other.v1" "Clusters" otherClusterRef

/-- The registry contents after scanning the two conforming fulfillment
services. -/
def demoHelpers : List ObjectHelper :=
  (scan [clustersSvc, clusterOrdersSvc]).getD []

/-- Pluralizer fragment: go-pluralize adds `s` to regular nouns; on
`cluster` and `clusterorder` this agrees with the values pinned by the
reflection package's own test expectations. -/
def plDemo (s : String) : String := s ++ "s"

/-- A service that declares the four methods and passes the Get request
`id` check, but whose Get response has no `object` field. -/
def widgetRef : MsgRef := { name := "Widget", fullName := "fulfillment.v1.Widget" }

def widgetsNoObjectSvc : ServiceDesc :=
  { fullName := "fulfillment.v1.Widgets"
    methods :=
      [ { mname := "Get"
          input := rpcMsg "fulfillment.v1" "Widgets" "GetRequest" [stringField "id"]
          output := rpcMsg "fulfillment.v1" "Widgets" "GetResponse" [] }
      , { mname := "List"
          input := rpcMsg "fulfillment.v1" "Widgets" "ListRequest" [stringField "filter"]
          output := rpcMsg "fulfillment.v1" "Widgets" "ListResponse"
            [repeatedMsgField "items" widgetRef] }
      , { mname := "Update"
          input := rpcMsg "fulfillment.v1" "Widgets" "UpdateRequest"
            [msgField "object" widgetRef]
          output := rpcMsg "fulfillment.v1" "Widgets" "UpdateResponse"
            [msgField "object" widgetRef] }
      , { mname := "Delete"
          input := rpcMsg "fulfillment.v1" "Widgets" "DeleteRequest" [stringField "id"]
          output := rpcMsg "fulfillment.v1" "Widgets" "DeleteResponse" [] } ] }

/-- A proto2-style field: singular (non-repeated) but of required
cardinality. -/
def requiredIdField : FieldDesc :=
  { fname := "id", cardinality := Cardinality.requiredCard, kind := FieldKind.stringKind,
    message := noMsg }

def gadgetRef : MsgRef := { name := "Gadget", fullName := "fulfillment.v1.Gadget" }

/-- A service conforming in every respect except that the Get request `id`
field has required (proto2) cardinality: still singular/non-repeated, but
rejected by the code's `Cardinality() != Optional` test. -/
def gadgetsRequiredIdSvc : ServiceDesc :=
  { fullName := "fulfillment.v1.Gadgets"
    methods :=
      [ { mname := "Get"
          input := rpcMsg "fulfillment.v1" "Gadgets" "GetRequest" [requiredIdField]
          output := rpcMsg "fulfillment.v1" "Gadgets" "GetResponse"
            [msgField "object" gadgetRef] }
      , { mname := "List"
          input := rpcMsg "fulfillment.v1" "Gadgets" "ListRequest" [stringField "filter"]
          output := rpcMsg "fulfillment.v1" "Gadgets" "ListResponse"
            [repeatedMsgField "items" gadgetRef] }
      , { mname := "Update"
          input := rpcMsg "fulfillment.v1" "Gadgets" "UpdateRequest"
            [msgField "object" gadgetRef]
          output := rpcMsg "fulfillment.v1" "Gadgets" "UpdateResponse"
            [msgField "object" gadgetRef] }
      , { mname := "Delete"
          input := rpcMsg "fulfillment.v1" "Gadgets" "DeleteRequest" [stringField "id"]
          output := rpcMsg "fulfillment.v1" "Gadgets" "DeleteResponse" [] } ] }

/-- A conforming `Create` method for the Clusters service. -/
def clustersCreateMethod : MethodDesc :=
  { mname := "Create"
    input := rpcMsg "fulfillment.v1" "Clusters" "CreateRequest" [msgField "object" clusterRef]
    output := rpcMsg "fulfillment.v1" "Clusters" "CreateResponse" [msgField "object" clusterRef] }

def clustersSvcWithCreate : ServiceDesc :=
  { clustersSvc with methods := clustersSvc.methods ++ [clustersCreateMethod] }

/-! ## Lookup and operation characterizations -/

/-- Spec-side match predicate for `Lookup`: the candidate equals, ignoring
case, the resource's lower-cased singular name or its pluralized form. -/
def nameMatches (pl : String → String) (objectType : String) (o : ObjectHelper) : Bool :=
  eqFold objectType (strLower o.descriptor.name) ||
    eqFold objectType (pl (strLower o.descriptor.name))

/-- A descriptor with no content, used as fallback when destructuring scan
outcomes of concrete services. -/
def blankHelper : ObjectHelper :=
  { descriptor := noMsg
    template := []
    list :=
      { method := { path := "", request := [], response := [] }
        filter := stringField "filter"
        items := repeatedMsgField "items" noMsg }
    get :=
      { method := { path := "", request := [], response := [] }
        id := stringField "id"
        object := msgField "object" noMsg }
    update :=
      { method := { path := "", request := [], response := [] }
        inField := msgField "object" noMsg
        outField := msgField "object" noMsg }
    delete :=
      { method := { path := "", request := [], response := [] }
        id := stringField "id" } }

/-- The descriptor discovered for the `Clusters` service. -/
def demoClusterHelper : ObjectHelper :=
  match scanService clustersSvc with
  | ScanResult.accept d => d
  | _ => blankHelper

/-- A transport that always fails. -/
def failTransport : Transport := fun _ _ => Except.error "boom"

/-- A transport whose List method returns two items with ids 123 and
456 in that order. -/
def listServerDemo : Transport := fun _ _ =>
  Except.ok
    [("items", MsgVal.vlist [[("id", MsgVal.vstr "123")], [("id", MsgVal.vstr "456")]])]

/-- The registry contents after scanning two conforming services from
different packages whose object types share the short name `Cluster`. -/
def dupHelpers : List ObjectHelper := (scan [clustersSvc, otherClustersSvc]).getD []

/-! ## Properties

First the bridge lemmas between the source field checks and the spec-side
predicates, then the characterization lemmas, then the claim theorems. -/
theorem getIdField_some_iff (m : MessageDesc) (f : FieldDesc) :
    getIdField m = some f ↔
      fieldByName m.fields "id" = some f ∧
        f.cardinality = Cardinality.optionalCard ∧ f.kind = FieldKind.stringKind := by
  cases h : fieldByName m.fields "id" with
  | none => simp [getIdField, h]
  | some fd =>
    simp only [getIdField, h]
    constructor
    · intro he
      repeat' split at he
      all_goals simp_all
    · rintro ⟨he, hc, hk⟩
      injection he with he
      subst he
      simp [hc, hk]

theorem exists_getIdField_iff (m : MessageDesc) :
    (∃ f, getIdField m = some f) ↔ optStringFieldNamed m "id" := by
  unfold optStringFieldNamed
  constructor
  · rintro ⟨f, hf⟩
    rcases (getIdField_some_iff m f).mp hf with ⟨h1, h2, h3⟩
    exact ⟨f, h1, h2, h3⟩
  · rintro ⟨f, h1, h2, h3⟩
    exact ⟨f, (getIdField_some_iff m f).mpr ⟨h1, h2, h3⟩⟩

theorem getObjectField_some_iff (m : MessageDesc) (f : FieldDesc) :
    getObjectField m = some f ↔
      fieldByName m.fields "object" = some f ∧
        f.cardinality = Cardinality.optionalCard ∧ f.kind = FieldKind.messageKind := by
  cases h : fieldByName m.fields "object" with
  | none => simp [getObjectField, h]
  | some fd =>
    simp only [getObjectField, h]
    constructor
    · intro he
      repeat' split at he
      all_goals simp_all
    · rintro ⟨he, hc, hk⟩
      injection he with he
      subst he
      simp [hc, hk]

theorem exists_getObjectField_iff (m : MessageDesc) (obj : MsgRef) :
    (∃ f, getObjectField m = some f ∧ f.message = obj) ↔ optMsgFieldNamed m "object" obj := by
  unfold optMsgFieldNamed
  constructor
  · rintro ⟨f, hf, hm⟩
    rcases (getObjectField_some_iff m f).mp hf with ⟨h1, h2, h3⟩
    exact ⟨f, h1, h2, h3, hm⟩
  · rintro ⟨f, h1, h2, h3, hm⟩
    exact ⟨f, (getObjectField_some_iff m f).mpr ⟨h1, h2, h3⟩, hm⟩

theorem getObjectField_none_iff (m : MessageDesc) :
    getObjectField m = none ↔ ¬ ∃ obj, optMsgFieldNamed m "object" obj := by
  constructor
  · rintro hn ⟨obj, hobj⟩
    rcases (exists_getObjectField_iff m obj).mpr hobj with ⟨f, hf, _⟩
    rw [hn] at hf
    cases hf
  · intro hne
    cases h : getObjectField m with
    | none => rfl
    | some f =>
      exact absurd ⟨f.message, (exists_getObjectField_iff m f.message).mp ⟨f, h, rfl⟩⟩ hne

theorem getFilterField_some_iff (m : MessageDesc) (f : FieldDesc) :
    getFilterField m = some f ↔
      fieldByName m.fields "filter" = some f ∧
        f.cardinality ≠ Cardinality.repeatedCard ∧ f.kind = FieldKind.stringKind := by
  cases h : fieldByName m.fields "filter" with
  | none => simp [getFilterField, h]
  | some fd =>
    simp only [getFilterField, h]
    constructor
    · intro he
      repeat' split at he
      all_goals simp_all
    · rintro ⟨he, hc, hk⟩
      injection he with he
      subst he
      simp [hc, hk]

theorem exists_getFilterField_iff (m : MessageDesc) :
    (∃ f, getFilterField m = some f) ↔ nonRepStringFieldNamed m "filter" := by
  unfold nonRepStringFieldNamed
  constructor
  · rintro ⟨f, hf⟩
    rcases (getFilterField_some_iff m f).mp hf with ⟨h1, h2, h3⟩
    exact ⟨f, h1, h2, h3⟩
  · rintro ⟨f, h1, h2, h3⟩
    exact ⟨f, (getFilterField_some_iff m f).mpr ⟨h1, h2, h3⟩⟩

theorem getItemsField_some_iff (m : MessageDesc) (f : FieldDesc) :
    getItemsField m = some f ↔
      fieldByName m.fields "items" = some f ∧
        f.cardinality = Cardinality.repeatedCard ∧ f.kind = FieldKind.messageKind := by
  cases h : fieldByName m.fields "items" with
  | none => simp [getItemsField, h]
  | some fd =>
    simp only [getItemsField, h]
    constructor
    · intro he
      repeat' split at he
      all_goals simp_all
    · rintro ⟨he, hc, hk⟩
      injection he with he
      subst he
      simp [hc, hk]

theorem exists_getItemsField_iff (m : MessageDesc) (obj : MsgRef) :
    (∃ f, getItemsField m = some f ∧ f.message = obj) ↔ repMsgFieldNamed m "items" obj := by
  unfold repMsgFieldNamed
  constructor
  · rintro ⟨f, hf, hm⟩
    rcases (getItemsField_some_iff m f).mp hf with ⟨h1, h2, h3⟩
    exact ⟨f, h1, h2, h3, hm⟩
  · rintro ⟨f, h1, h2, h3, hm⟩
    exact ⟨f, (getItemsField_some_iff m f).mpr ⟨h1, h2, h3⟩, hm⟩

theorem isAccept_iff (r : ScanResult) : isAccept r ↔ ∃ d, r = ScanResult.accept d := by
  cases r <;> simp [isAccept]

theorem scanService_accept_iff (svc : ServiceDesc) :
    (∃ d, scanService svc = ScanResult.accept d) ↔ resourceConditions svc := by
  constructor
  · rintro ⟨d, hd⟩
    obtain ⟨listDesc, hL⟩ : ∃ x, byName svc.methods "List" = some x := by
      cases h : byName svc.methods "List" with
      | none => simp [scanService, h] at hd
      | some x => exact ⟨x, rfl⟩
    simp only [scanService, hL] at hd
    obtain ⟨getDesc, hG⟩ : ∃ x, byName svc.methods "Get" = some x := by
      cases h : byName svc.methods "Get" with
      | none => simp [h] at hd
      | some x => exact ⟨x, rfl⟩
    simp only [hG] at hd
    obtain ⟨updateDesc, hU⟩ : ∃ x, byName svc.methods "Update" = some x := by
      cases h : byName svc.methods "Update" with
      | none => simp [h] at hd
      | some x => exact ⟨x, rfl⟩
    simp only [hU] at hd
    obtain ⟨deleteDesc, hD⟩ : ∃ x, byName svc.methods "Delete" = some x := by
      cases h : byName svc.methods "Delete" with
      | none => simp [h] at hd
      | some x => exact ⟨x, rfl⟩
    simp only [hD] at hd
    obtain ⟨gid, hgid⟩ : ∃ x, getIdField getDesc.input = some x := by
      cases h : getIdField getDesc.input with
      | none => simp [h] at hd
      | some x => exact ⟨x, rfl⟩
    simp only [hgid] at hd
    obtain ⟨gobj, hgobj⟩ : ∃ x, getObjectField getDesc.output = some x := by
      cases h : getObjectField getDesc.output with
      | none => simp [h] at hd
      | some x => exact ⟨x, rfl⟩
    simp only [hgobj] at hd
    obtain ⟨fil, hfil⟩ : ∃ x, getFilterField listDesc.input = some x := by
      cases h : getFilterField listDesc.input with
      | none => simp [h] at hd
      | some x => exact ⟨x, rfl⟩
    simp only [hfil] at hd
    obtain ⟨items, hitems⟩ : ∃ x, getItemsField listDesc.output = some x := by
      cases h : getItemsField listDesc.output with
      | none => simp [h] at hd
      | some x => exact ⟨x, rfl⟩
    simp only [hitems] at hd
    have hitemsEq : items.message = gobj.message := by
      by_cases h : items.message = gobj.message
      · exact h
      · simp [h] at hd
    rw [if_neg (by simp [hitemsEq])] at hd
    obtain ⟨upin, hupin⟩ : ∃ x, getObjectField updateDesc.input = some x := by
      cases h : getObjectField updateDesc.input with
      | none => simp [h] at hd
      | some x => exact ⟨x, rfl⟩
    simp only [hupin] at hd
    have hupinEq : upin.message = gobj.message := by
      by_cases h : upin.message = gobj.message
      · exact h
      · simp [h] at hd
    rw [if_neg (by simp [hupinEq])] at hd
    obtain ⟨upout, hupout⟩ : ∃ x, getObjectField updateDesc.output = some x := by
      cases h : getObjectField updateDesc.output with
      | none => simp [h] at hd
      | some x => exact ⟨x, rfl⟩
    simp only [hupout] at hd
    have hupoutEq : upout.message = gobj.message := by
      by_cases h : upout.message = gobj.message
      · exact h
      · simp [h] at hd
    rw [if_neg (by simp [hupoutEq])] at hd
    obtain ⟨did, hdid⟩ : ∃ x, getIdField deleteDesc.input = some x := by
      cases h : getIdField deleteDesc.input with
      | none => simp [h] at hd
      | some x => exact ⟨x, rfl⟩
    refine ⟨getDesc, hG, listDesc, hL, updateDesc, hU, deleteDesc, hD, ?_,
      gobj.message, ?_, ?_, ?_, ?_, ?_, ?_⟩
    · exact (exists_getIdField_iff _).mp ⟨gid, hgid⟩
    · exact (exists_getObjectField_iff _ _).mp ⟨gobj, hgobj, rfl⟩
    · exact (exists_getFilterField_iff _).mp ⟨fil, hfil⟩
    · exact (exists_getItemsField_iff _ _).mp ⟨items, hitems, hitemsEq⟩
    · exact (exists_getObjectField_iff _ _).mp ⟨upin, hupin, hupinEq⟩
    · exact (exists_getObjectField_iff _ _).mp ⟨upout, hupout, hupoutEq⟩
    · exact (exists_getIdField_iff _).mp ⟨did, hdid⟩
  · rintro ⟨g, hG, l, hL, u, hU, dm, hD, hid, obj, hobj, hfil, hitems, hupin, hupout, hdid⟩
    obtain ⟨gid, hgid⟩ := (exists_getIdField_iff g.input).mpr hid
    obtain ⟨gobj, hgobj, hgobjMsg⟩ := (exists_getObjectField_iff g.output obj).mpr hobj
    obtain ⟨fil, hfilE⟩ := (exists_getFilterField_iff l.input).mpr hfil
    obtain ⟨items, hitemsE, hitemsMsg⟩ := (exists_getItemsField_iff l.output obj).mpr hitems
    obtain ⟨upin, hupinE, hupinMsg⟩ := (exists_getObjectField_iff u.input obj).mpr hupin
    obtain ⟨upout, hupoutE, hupoutMsg⟩ := (exists_getObjectField_iff u.output obj).mpr hupout
    obtain ⟨did, hdidE⟩ := (exists_getIdField_iff dm.input).mpr hdid
    rw [← isAccept_iff]
    simp only [scanService, hL, hG, hU, hD, hgid, hgobj, hfilE, hitemsE, hupinE, hupoutE,
      hdidE, hgobjMsg, hitemsMsg, hupinMsg, hupoutMsg]
    simp [isAccept]

theorem scanService_panic_iff (svc : ServiceDesc) :
    scanService svc = ScanResult.panic ↔ panicConditions svc := by
  constructor
  · intro hd
    obtain ⟨listDesc, hL⟩ : ∃ x, byName svc.methods "List" = some x := by
      cases h : byName svc.methods "List" with
      | none => simp [scanService, h] at hd
      | some x => exact ⟨x, rfl⟩
    simp only [scanService, hL] at hd
    obtain ⟨getDesc, hG⟩ : ∃ x, byName svc.methods "Get" = some x := by
      cases h : byName svc.methods "Get" with
      | none => simp [h] at hd
      | some x => exact ⟨x, rfl⟩
    simp only [hG] at hd
    obtain ⟨updateDesc, hU⟩ : ∃ x, byName svc.methods "Update" = some x := by
      cases h : byName svc.methods "Update" with
      | none => simp [h] at hd
      | some x => exact ⟨x, rfl⟩
    simp only [hU] at hd
    obtain ⟨deleteDesc, hD⟩ : ∃ x, byName svc.methods "Delete" = some x := by
      cases h : byName svc.methods "Delete" with
      | none => simp [h] at hd
      | some x => exact ⟨x, rfl⟩
    simp only [hD] at hd
    obtain ⟨gid, hgid⟩ : ∃ x, getIdField getDesc.input = some x := by
      cases h : getIdField getDesc.input with
      | none => simp [h] at hd
      | some x => exact ⟨x, rfl⟩
    simp only [hgid] at hd
    have hobjNone : getObjectField getDesc.output = none := by
      cases h : getObjectField getDesc.output with
      | none => rfl
      | some gobj =>
        exfalso
        simp only [h] at hd
        cases h2 : getFilterField listDesc.input with
        | none => simp [h2] at hd
        | some fil =>
          simp only [h2] at hd
          cases h3 : getItemsField listDesc.output with
          | none => simp [h3] at hd
          | some items =>
            simp only [h3] at hd
            by_cases h4 : items.message = gobj.message
            · rw [if_neg (by simp [h4])] at hd
              cases h5 : getObjectField updateDesc.input with
              | none => simp [h5] at hd
              | some upin =>
                simp only [h5] at hd
                by_cases h6 : upin.message = gobj.message
                · rw [if_neg (by simp [h6])] at hd
                  cases h7 : getObjectField updateDesc.output with
                  | none => simp [h7] at hd
                  | some upout =>
                    simp only [h7] at hd
                    by_cases h8 : upout.message = gobj.message
                    · rw [if_neg (by simp [h8])] at hd
                      cases h9 : getIdField deleteDesc.input with
                      | none => simp [h9] at hd
                      | some did => simp [h9] at hd
                    · rw [if_pos (by simp [h8])] at hd
                      cases hd
                · rw [if_pos (by simp [h6])] at hd
                  cases hd
            · rw [if_pos (by simp [h4])] at hd
              cases hd
    refine ⟨getDesc, hG, ⟨listDesc, hL⟩, ⟨updateDesc, hU⟩, ⟨deleteDesc, hD⟩, ?_, ?_⟩
    · exact (exists_getIdField_iff _).mp ⟨gid, hgid⟩
    · exact (getObjectField_none_iff _).mp hobjNone
  · rintro ⟨g, hG, ⟨l, hL⟩, ⟨u, hU⟩, ⟨dm, hD⟩, hid, hnone⟩
    obtain ⟨gid, hgid⟩ := (exists_getIdField_iff g.input).mpr hid
    have hobjNone : getObjectField g.output = none := (getObjectField_none_iff _).mpr hnone
    simp only [scanService, hL, hG, hU, hD, hgid, hobjNone]

example : (scan [clustersSvc, clusterOrdersSvc]).isSome = true := rfl

example : demoHelpers.length = 2 := rfl

example : Singulars demoHelpers = ["cluster", "clusterorder"] := by decide

example : Plurals plDemo demoHelpers = ["clusterorders", "clusters"] := by decide

example : scanService widgetsNoObjectSvc = ScanResult.panic := rfl

example : scanService gadgetsRequiredIdSvc = ScanResult.skip := rfl

example : isAccept (scanService clustersSvcWithCreate) := trivial

theorem lookup_eq_find (pl : String → String) (x : String) :
    ∀ hs : List ObjectHelper, Lookup pl x hs = hs.find? (nameMatches pl x) := by
  intro hs
  induction hs with
  | nil => rfl
  | cons o rest ih =>
    simp only [Lookup, List.find?]
    by_cases h1 : eqFold x (strLower o.descriptor.name) = true
    · simp [nameMatches, h1]
    · by_cases h2 : eqFold x (pl (strLower o.descriptor.name)) = true
      · simp [nameMatches, h1, h2]
      · simp only [nameMatches]
        rw [if_neg (by simp [h1]), if_neg (by simp [h2])]
        simp only [Bool.not_eq_true] at h1 h2
        simp [h1, h2, ih]

theorem msgGetField_set_self (m : MsgData) (f : String) (v : MsgVal) :
    msgGetField (msgSet m f v) f = some v := by
  simp [msgGetField, msgSet, List.find?]

theorem List_characterization_aux (h : ObjectHelper) (invoke : Transport)
    (options : ListOptions) :
    ObjectHelper.List h invoke options =
      match invoke h.list.method.path (listRequestSpec h options) with
      | Except.error e => (none, some e)
      | Except.ok resp => (some (msgGetList resp h.list.items.fname), none) := by
  by_cases hf : options.Filter = "" <;>
    simp [ObjectHelper.List, listRequestSpec, hf]

theorem Get_characterization_aux (c : ObjectHelper) (invoke : Transport) (id : String) :
    ObjectHelper.Get c invoke id =
      match invoke c.get.method.path (getRequestSpec c id) with
      | Except.error e => (none, some e)
      | Except.ok resp => (some (msgGetMsg resp c.get.object.fname), none) := rfl

theorem Update_characterization_aux (c : ObjectHelper) (invoke : Transport)
    (object : MsgData) :
    ObjectHelper.Update c invoke object =
      match invoke c.update.method.path (updateRequestSpec c object) with
      | Except.error e =>
        (some (msgGetMsg c.update.method.response c.update.outField.fname),
         some ("failed to update object: " ++ e))
      | Except.ok resp => (some (msgGetMsg resp c.update.outField.fname), none) := rfl

theorem Delete_characterization_aux (c : ObjectHelper) (invoke : Transport) (id : String) :
    ObjectHelper.Delete c invoke id =
      match invoke c.delete.method.path (deleteRequestSpec c id) with
      | Except.error e => some e
      | Except.ok _ => none := rfl

theorem fieldByName_some_name (fs : List FieldDesc) (n : String) (f : FieldDesc)
    (h : fieldByName fs n = some f) : f.fname = n := by
  have := List.find?_some h
  simpa using this

theorem byName_append_ne (ms : List MethodDesc) (m : MethodDesc) (n : String)
    (h : m.mname ≠ n) : byName (ms ++ [m]) n = byName ms n := by
  induction ms with
  | nil =>
    simp only [List.nil_append, byName, List.find?]
    have hb : (m.mname == n) = false := by simp [h]
    simp [hb]
  | cons a rest ih =>
    simp only [List.cons_append, byName, List.find?] at ih ⊢
    cases h2 : (a.mname == n) with
    | true => rfl
    | false => exact ih

/-- Adding a method named `Create` to a service leaves `scanService`
unchanged: discovery reads only the four mandatory method names. -/
theorem scanService_append_create (svc : ServiceDesc) (m : MethodDesc)
    (h : m.mname = "Create") :
    scanService { svc with methods := svc.methods ++ [m] } = scanService svc := by
  have hL := byName_append_ne svc.methods m "List" (by simp [h])
  have hG := byName_append_ne svc.methods m "Get" (by simp [h])
  have hU := byName_append_ne svc.methods m "Update" (by simp [h])
  have hD := byName_append_ne svc.methods m "Delete" (by simp [h])
  simp [scanService, hL, hG, hU, hD, makeMethodPath]

/-- Metadata recorded for the `Delete` method in every accepted
descriptor: the method path follows the wire convention for the service's
`Delete` method, the request template is blank, and the recorded `id`
field is the validated optional string field named `id` of the Delete
request. -/
theorem scanService_accept_delete_meta (svc : ServiceDesc) (d : ObjectHelper)
    (hd : scanService svc = ScanResult.accept d) :
    ∃ dm, byName svc.methods "Delete" = some dm ∧
      d.delete.method.path = makeMethodPath svc dm ∧
      d.delete.method.request = [] ∧
      d.delete.id.fname = "id" ∧
      d.delete.id.cardinality = Cardinality.optionalCard ∧
      d.delete.id.kind = FieldKind.stringKind := by
  obtain ⟨listDesc, hL⟩ : ∃ x, byName svc.methods "List" = some x := by
    cases h : byName svc.methods "List" with
    | none => simp [scanService, h] at hd
    | some x => exact ⟨x, rfl⟩
  simp only [scanService, hL] at hd
  obtain ⟨getDesc, hG⟩ : ∃ x, byName svc.methods "Get" = some x := by
    cases h : byName svc.methods "Get" with
    | none => simp [h] at hd
    | some x => exact ⟨x, rfl⟩
  simp only [hG] at hd
  obtain ⟨updateDesc, hU⟩ : ∃ x, byName svc.methods "Update" = some x := by
    cases h : byName svc.methods "Update" with
    | none => simp [h] at hd
    | some x => exact ⟨x, rfl⟩
  simp only [hU] at hd
  obtain ⟨deleteDesc, hD⟩ : ∃ x, byName svc.methods "Delete" = some x := by
    cases h : byName svc.methods "Delete" with
    | none => simp [h] at hd
    | some x => exact ⟨x, rfl⟩
  simp only [hD] at hd
  obtain ⟨gid, hgid⟩ : ∃ x, getIdField getDesc.input = some x := by
    cases h : getIdField getDesc.input with
    | none => simp [h] at hd
    | some x => exact ⟨x, rfl⟩
  simp only [hgid] at hd
  obtain ⟨gobj, hgobj⟩ : ∃ x, getObjectField getDesc.output = some x := by
    cases h : getObjectField getDesc.output with
    | none => simp [h] at hd
    | some x => exact ⟨x, rfl⟩
  simp only [hgobj] at hd
  obtain ⟨fil, hfil⟩ : ∃ x, getFilterField listDesc.input = some x := by
    cases h : getFilterField listDesc.input with
    | none => simp [h] at hd
    | some x => exact ⟨x, rfl⟩
  simp only [hfil] at hd
  obtain ⟨items, hitems⟩ : ∃ x, getItemsField listDesc.output = some x := by
    cases h : getItemsField listDesc.output with
    | none => simp [h] at hd
    | some x => exact ⟨x, rfl⟩
  simp only [hitems] at hd
  have hitemsEq : items.message = gobj.message := by
    by_cases h : items.message = gobj.message
    · exact h
    · simp [h] at hd
  rw [if_neg (by simp [hitemsEq])] at hd
  obtain ⟨upin, hupin⟩ : ∃ x, getObjectField updateDesc.input = some x := by
    cases h : getObjectField updateDesc.input with
    | none => simp [h] at hd
    | some x => exact ⟨x, rfl⟩
  simp only [hupin] at hd
  have hupinEq : upin.message = gobj.message := by
    by_cases h : upin.message = gobj.message
    · exact h
    · simp [h] at hd
  rw [if_neg (by simp [hupinEq])] at hd
  obtain ⟨upout, hupout⟩ : ∃ x, getObjectField updateDesc.output = some x := by
    cases h : getObjectField updateDesc.output with
    | none => simp [h] at hd
    | some x => exact ⟨x, rfl⟩
  simp only [hupout] at hd
  have hupoutEq : upout.message = gobj.message := by
    by_cases h : upout.message = gobj.message
    · exact h
    · simp [h] at hd
  rw [if_neg (by simp [hupoutEq])] at hd
  obtain ⟨did, hdid⟩ : ∃ x, getIdField deleteDesc.input = some x := by
    cases h : getIdField deleteDesc.input with
    | none => simp [h] at hd
    | some x => exact ⟨x, rfl⟩
  simp only [hdid] at hd
  injection hd with hd
  rcases (getIdField_some_iff deleteDesc.input did).mp hdid with ⟨hdf, hdc, hdk⟩
  have hdn := fieldByName_some_name _ _ _ hdf
  subst hd
  exact ⟨deleteDesc, hD, rfl, rfl, hdn, hdc, hdk⟩

/-- Modelled-from-spec Create discovery succeeds whenever the service
declares a `Create` method whose request and response both carry an
optional `object` message field of the object type. -/
theorem scanServiceCreate_found (svc : ServiceDesc) (obj : MsgRef)
    (h : ∃ cm, byName svc.methods "Create" = some cm ∧
      optMsgFieldNamed cm.input "object" obj ∧ optMsgFieldNamed cm.output "object" obj) :
    ∃ ci, scanServiceCreate svc obj = some ci := by
  obtain ⟨cm, hcm, hin, hout⟩ := h
  obtain ⟨fin, hfinE, hfinMsg⟩ := (exists_getObjectField_iff cm.input obj).mpr hin
  obtain ⟨fout, hfoutE, hfoutMsg⟩ := (exists_getObjectField_iff cm.output obj).mpr hout
  have : (scanServiceCreate svc obj).isSome = true := by
    simp [scanServiceCreate, hcm, hfinE, hfoutE, hfinMsg, hfoutMsg]
  exact Option.isSome_iff_exists.mp this

example : scanService clustersSvc = ScanResult.accept demoClusterHelper := rfl

/-- C1: a service that declares Get/List/Update/Delete and passes the Get
request `id` check, but whose Get response lacks a singular `object`
message field, does not cause a soft skip: the scan dereferences the nil
result of `getObjectField` and panics.  The concrete `Widgets` service has
an empty Get response, so `getObjectField` yields nothing and the scan
outcome is `panic`, contradicting the claimed soft exclusion. -/
theorem missing_object_field_check_panics :
    scanService widgetsNoObjectSvc = ScanResult.panic ∧
    getObjectField (rpcMsg "fulfillment.v1" "Widgets" "GetResponse" []) = none :=
  ⟨rfl, rfl⟩

/-- C2: every accepted descriptor records Delete metadata (wire path of
the service's Delete method, blank request template, the validated
optional string `id` field); the Delete operation clones the template,
sets `id` and invokes the Delete path, propagating the transport outcome;
discovery is unaffected by the presence of a method named `Create`; a
conforming `Create` method (request and response with an optional `object`
field of the object type) yields Create metadata; and the Create operation
is symmetric to Update.  `ObjectHelper.Delete`/`ObjectHelper.Create` and
Create discovery are modelled from the spec, their bodies being absent
from the provided sources. -/
theorem delete_and_create_operations :
    (∀ svc d, scanService svc = ScanResult.accept d →
      ∃ dm, byName svc.methods "Delete" = some dm ∧
        d.delete.method.path = makeMethodPath svc dm ∧
        d.delete.method.request = [] ∧
        d.delete.id.fname = "id" ∧
        d.delete.id.cardinality = Cardinality.optionalCard ∧
        d.delete.id.kind = FieldKind.stringKind) ∧
    (∀ (d : ObjectHelper) (invoke : Transport) (id : String),
      ObjectHelper.Delete d invoke id =
        match invoke d.delete.method.path (deleteRequestSpec d id) with
        | Except.error e => some e
        | Except.ok _ => none) ∧
    (∀ (svc : ServiceDesc) (m : MethodDesc), m.mname = "Create" →
      scanService { svc with methods := svc.methods ++ [m] } = scanService svc) ∧
    (∀ (svc : ServiceDesc) (obj : MsgRef),
      (∃ cm, byName svc.methods "Create" = some cm ∧
        optMsgFieldNamed cm.input "object" obj ∧
        optMsgFieldNamed cm.output "object" obj) →
      ∃ ci, scanServiceCreate svc obj = some ci) ∧
    (∀ (ci : createInfo) (invoke : Transport) (object : MsgData),
      ObjectHelper.Create ci invoke object =
        match invoke ci.method.path
            (msgSet ci.method.request ci.inField.fname (MsgVal.vmsg object)) with
        | Except.error e => (none, some e)
        | Except.ok resp => (some (msgGetMsg resp ci.outField.fname), none)) :=
  ⟨scanService_accept_delete_meta,
   fun d invoke id => Delete_characterization_aux d invoke id,
   scanService_append_create,
   scanServiceCreate_found,
   fun _ _ _ => rfl⟩

/-- C2 witness: the concrete Clusters service yields a descriptor whose
Delete metadata is as claimed, Delete propagates a transport failure,
adding a Create method leaves discovery unchanged, and the Create method
of the extended service is discovered. -/
theorem delete_and_create_operations_witness :
    (∃ dm, byName clustersSvc.methods "Delete" = some dm ∧
      demoClusterHelper.delete.method.path = makeMethodPath clustersSvc dm ∧
      demoClusterHelper.delete.method.request = [] ∧
      demoClusterHelper.delete.id.fname = "id" ∧
      demoClusterHelper.delete.id.cardinality = Cardinality.optionalCard ∧
      demoClusterHelper.delete.id.kind = FieldKind.stringKind) ∧
    ObjectHelper.Delete demoClusterHelper failTransport "123" = some "boom" ∧
    scanService clustersSvcWithCreate = scanService clustersSvc ∧
    (∃ ci, scanServiceCreate clustersSvcWithCreate clusterRef = some ci) := by
  have h := delete_and_create_operations
  refine ⟨h.1 clustersSvc demoClusterHelper rfl, ?_, ?_, ?_⟩
  · exact (h.2.1 demoClusterHelper failTransport "123").trans rfl
  · exact h.2.2.1 clustersSvc clustersCreateMethod rfl
  · exact h.2.2.2.1 clustersSvcWithCreate clusterRef
      ⟨_, rfl, ⟨_, rfl, rfl, rfl, rfl⟩, ⟨_, rfl, rfl, rfl, rfl⟩⟩

/-- C3 counterexample: the claim, as stated, fails on the code in two
places.  The `Gadgets` service satisfies every condition of the claim as
stated (its Get request `id` is singular — non-repeated — though of
required cardinality), yet the scan skips it and produces no descriptor;
and the `Widgets` service fails the Get-response `object` check yet is not
silently excluded — the scan panics. -/
theorem resource_descriptor_claim_counterexample :
    (claimConditions gadgetsRequiredIdSvc ∧
      scanService gadgetsRequiredIdSvc = ScanResult.skip) ∧
    scanService widgetsNoObjectSvc = ScanResult.panic := by
  refine ⟨⟨?_, rfl⟩, rfl⟩
  exact ⟨_, rfl, _, rfl, _, rfl, _, rfl,
    ⟨_, rfl, by decide, rfl⟩,
    gadgetRef,
    ⟨_, rfl, by decide, rfl, rfl⟩,
    ⟨_, rfl, by decide, rfl⟩,
    ⟨_, rfl, rfl, rfl, rfl⟩,
    ⟨_, rfl, by decide, rfl, rfl⟩,
    ⟨_, rfl, by decide, rfl, rfl⟩,
    ⟨_, rfl, by decide, rfl⟩⟩

/-- C3 (amended): a Resource Descriptor is produced for a service iff the
four methods exist and all shape checks hold with the cardinalities the
code enforces (optional for `id`/`object`, non-repeated for `filter`,
repeated for `items`, all object types equal); the scan panics exactly
when the four methods exist, the Get request `id` check passes and the Get
response `object` check fails; in every other case the service is silently
skipped. -/
theorem resource_descriptor_characterization :
    ∀ svc : ServiceDesc,
      ((∃ d, scanService svc = ScanResult.accept d) ↔ resourceConditions svc) ∧
      (scanService svc = ScanResult.panic ↔ panicConditions svc) ∧
      (scanService svc = ScanResult.skip ↔
        ¬ resourceConditions svc ∧ ¬ panicConditions svc) := by
  intro svc
  refine ⟨scanService_accept_iff svc, scanService_panic_iff svc, ?_⟩
  constructor
  · intro h
    constructor
    · intro hr
      obtain ⟨d, hd⟩ := (scanService_accept_iff svc).mpr hr
      rw [h] at hd
      cases hd
    · intro hp
      have hq := (scanService_panic_iff svc).mpr hp
      rw [h] at hq
      cases hq
  · rintro ⟨hnr, hnp⟩
    cases hs : scanService svc with
    | skip => rfl
    | panic => exact absurd ((scanService_panic_iff svc).mp hs) hnp
    | accept d => exact absurd ((scanService_accept_iff svc).mp ⟨d, hs⟩) hnr

/-- C3 witness: the characterization applied to concrete services — the
conforming Clusters service is accepted, and the Widgets service (missing
the Get response `object` field) panics. -/
theorem resource_descriptor_characterization_witness :
    (∃ d, scanService clustersSvc = ScanResult.accept d) ∧
    scanService widgetsNoObjectSvc = ScanResult.panic := by
  have h := resource_descriptor_characterization
  constructor
  · exact (h clustersSvc).1.mpr
      ⟨_, rfl, _, rfl, _, rfl, _, rfl,
        ⟨_, rfl, rfl, rfl⟩,
        clusterRef,
        ⟨_, rfl, rfl, rfl, rfl⟩,
        ⟨_, rfl, by decide, rfl⟩,
        ⟨_, rfl, rfl, rfl, rfl⟩,
        ⟨_, rfl, rfl, rfl, rfl⟩,
        ⟨_, rfl, rfl, rfl, rfl⟩,
        ⟨_, rfl, rfl, rfl⟩⟩
  · refine (h widgetsNoObjectSvc).2.1.mpr
      ⟨_, rfl, ⟨_, rfl⟩, ⟨_, rfl⟩, ⟨_, rfl⟩, ⟨_, rfl, rfl, rfl⟩, ?_⟩
    rintro ⟨obj, f, hf, _⟩
    exact Option.noConfusion hf

/-- C4: `Lookup` returns the first resource, in insertion order, whose
lower-cased singular name or pluralized form equals the argument ignoring
case, and returns `none` — a normal result, not an error — exactly when no
resource matches. -/
theorem Lookup_first_match_or_none :
    ∀ (pl : String → String) (x : String) (hs : List ObjectHelper),
      Lookup pl x hs = hs.find? (nameMatches pl x) ∧
      (Lookup pl x hs = none ↔ ∀ o ∈ hs, nameMatches pl x o = false) := by
  intro pl x hs
  refine ⟨lookup_eq_find pl x hs, ?_⟩
  rw [lookup_eq_find pl x hs, List.find?_eq_none]
  simp

/-- C4 witness: lookups on the concrete registry — case-insensitive
singular and plural matches succeed, a non-matching name yields `none`. -/
theorem Lookup_first_match_or_none_witness :
    Lookup plDemo "CLUSTER" demoHelpers =
      demoHelpers.find? (nameMatches plDemo "CLUSTER") ∧
    (Lookup plDemo "CLUSTER" demoHelpers).isSome = true ∧
    (Lookup plDemo "Clusters" demoHelpers).isSome = true ∧
    Lookup plDemo "nothing" demoHelpers = none := by
  have h := Lookup_first_match_or_none
  refine ⟨(h plDemo "CLUSTER" demoHelpers).1, rfl, rfl, ?_⟩
  exact (h plDemo "nothing" demoHelpers).2.mpr (by decide)

/-- C5: `List` is fully determined by one transport invocation of the List
method path on the spec request (the cloned template, with `filter` set
iff the option is non-empty): a transport error is returned as-is with no
result and no retry, and success returns the response's `items` in server
order. -/
theorem List_operation_characterization :
    ∀ (h : ObjectHelper) (invoke : Transport) (options : ListOptions),
      (ObjectHelper.List h invoke options =
        match invoke h.list.method.path (listRequestSpec h options) with
        | Except.error e => (none, some e)
        | Except.ok resp => (some (msgGetList resp h.list.items.fname), none)) ∧
      (options.Filter ≠ "" →
        msgGetField (listRequestSpec h options) h.list.filter.fname =
          some (MsgVal.vstr options.Filter)) ∧
      (options.Filter = "" → listRequestSpec h options = h.list.method.request) := by
  intro h invoke options
  refine ⟨List_characterization_aux h invoke options, ?_, ?_⟩
  · intro hf
    rw [listRequestSpec, if_neg hf]
    exact msgGetField_set_self _ _ _
  · intro hf
    rw [listRequestSpec, if_pos hf]

/-- C5 witness: against a server returning items with ids 123 then 456,
`List` returns exactly those two objects in that order; a filter of `x` is
set on the request; an empty filter leaves the blank template unchanged; a
transport failure is propagated with no items. -/
theorem List_operation_characterization_witness :
    ObjectHelper.List demoClusterHelper listServerDemo { Filter := "" } =
      (some [[("id", MsgVal.vstr "123")], [("id", MsgVal.vstr "456")]], none) ∧
    msgGetField (listRequestSpec demoClusterHelper { Filter := "x" })
      demoClusterHelper.list.filter.fname = some (MsgVal.vstr "x") ∧
    listRequestSpec demoClusterHelper { Filter := "" } =
      demoClusterHelper.list.method.request ∧
    ObjectHelper.List demoClusterHelper failTransport { Filter := "" } =
      (none, some "boom") := by
  have h := List_operation_characterization
  refine ⟨?_, ?_, ?_, ?_⟩
  · exact (h demoClusterHelper listServerDemo { Filter := "" }).1.trans rfl
  · exact (h demoClusterHelper listServerDemo { Filter := "x" }).2.1 (by decide)
  · exact (h demoClusterHelper listServerDemo { Filter := "" }).2.2 rfl
  · exact (h demoClusterHelper failTransport { Filter := "" }).1.trans rfl

/-- C6 counterexample: two conforming services in different packages whose
object types share the short name `Cluster` are both discovered, and
`Singulars` then returns the lower-cased name twice — one entry per
resource, but not deduplicated. -/
theorem Singulars_not_deduplicated :
    Singulars dupHelpers = ["cluster", "cluster"] ∧
    ¬ (Singulars dupHelpers).Nodup ∧
    dupHelpers.map (fun o => o.descriptor.fullName) =
      ["fulfillment.v1.Cluster", "other.v1.Cluster"] :=
  ⟨by decide, by decide, by decide⟩

/-- C6 (amended): `Singulars` returns exactly one lower-cased entry per
discovered resource — a permutation of the lower-cased short names, in
ascending lexicographic order; entries are not deduplicated when distinct
resources share a lower-cased name. -/
theorem Singulars_sorted_one_per_resource :
    ∀ hs : List ObjectHelper,
      List.Sorted strOrd (Singulars hs) ∧
      (Singulars hs).Perm (hs.map (fun o => strLower o.descriptor.name)) :=
  fun _ => ⟨List.sorted_insertionSort strOrd _, List.perm_insertionSort strOrd _⟩

/-- C7 counterexample: with the regular `+s` pluralization (the values the
package's own tests pin for these nouns), the registry holding `Cluster`
and `ClusterOrder` has `Singulars = [cluster, clusterorder]` but
`Plurals = [clusterorders, clusters]`: the first entry of `Plurals` is not
the pluralization of the first entry of `Singulars`, because both lists
are sorted independently. -/
theorem Plurals_not_pointwise :
    Singulars demoHelpers = ["cluster", "clusterorder"] ∧
    Plurals plDemo demoHelpers = ["clusterorders", "clusters"] ∧
    plDemo "cluster" = "clusters" ∧
    Plurals plDemo demoHelpers ≠ (Singulars demoHelpers).map plDemo :=
  ⟨by decide, by decide, by decide, by decide⟩

/-- C7 (amended): `Plurals` returns the pluralized lower-cased names in
ascending lexicographic order; as a multiset it is exactly the
pluralization of the `Singulars` entries, but the two lists are sorted
independently, so the correspondence need not hold index by index. -/
theorem Plurals_sorted_perm_of_singulars :
    ∀ (pl : String → String) (hs : List ObjectHelper),
      List.Sorted strOrd (Plurals pl hs) ∧
      (Plurals pl hs).Perm ((Singulars hs).map pl) := by
  intro pl hs
  refine ⟨List.sorted_insertionSort strOrd _, ?_⟩
  have h1 : (Plurals pl hs).Perm (hs.map (fun o => pl (strLower o.descriptor.name))) :=
    List.perm_insertionSort strOrd _
  have h2 : (hs.map (fun o => strLower o.descriptor.name)).Perm (Singulars hs) :=
    (List.perm_insertionSort strOrd _).symm
  have h3 := h2.map pl
  rw [List.map_map] at h3
  exact h1.trans h3

/-- C8: a transport failure in `Update` is wrapped with the update-failure
description and propagated with no retry, while `Get` and `List` propagate
the transport error verbatim. -/
theorem transport_error_propagation :
    ∀ (h : ObjectHelper) (invoke : Transport) (object : MsgData) (id : String)
      (options : ListOptions) (e : String),
      (invoke h.update.method.path (updateRequestSpec h object) = Except.error e →
        (ObjectHelper.Update h invoke object).2 =
          some ("failed to update object: " ++ e)) ∧
      (invoke h.get.method.path (getRequestSpec h id) = Except.error e →
        (ObjectHelper.Get h invoke id).2 = some e) ∧
      (invoke h.list.method.path (listRequestSpec h options) = Except.error e →
        (ObjectHelper.List h invoke options).2 = some e) := by
  intro h invoke object id options e
  refine ⟨?_, ?_, ?_⟩
  · intro he
    rw [Update_characterization_aux, he]
  · intro he
    rw [Get_characterization_aux, he]
  · intro he
    rw [List_characterization_aux, he]

/-- C8 witness: a failing transport produces the wrapped update error and
the verbatim Get/List errors on the concrete descriptor. -/
theorem transport_error_propagation_witness :
    (ObjectHelper.Update demoClusterHelper failTransport []).2 =
      some ("failed to update object: " ++ "boom") ∧
    (ObjectHelper.Get demoClusterHelper failTransport "123").2 = some "boom" ∧
    (ObjectHelper.List demoClusterHelper failTransport { Filter := "" }).2 =
      some "boom" := by
  have h := transport_error_propagation demoClusterHelper failTransport [] "123"
    { Filter := "" } "boom"
  exact ⟨h.1 rfl, h.2.1 rfl, h.2.2 rfl⟩

/-- C10: on transport failure `Update` does not return early: alongside
the wrapped error it still returns a present (non-nil) result, namely the
`object` field read from the cloned blank response template, while `Get`
and `List` return immediately with no result. -/
theorem update_error_returns_blank_object :
    ∀ (h : ObjectHelper) (invoke : Transport) (object : MsgData) (id : String)
      (options : ListOptions) (e : String),
      (invoke h.update.method.path (updateRequestSpec h object) = Except.error e →
        ObjectHelper.Update h invoke object =
          (some (msgGetMsg h.update.method.response h.update.outField.fname),
           some ("failed to update object: " ++ e)) ∧
        (ObjectHelper.Update h invoke object).1.isSome = true) ∧
      (invoke h.get.method.path (getRequestSpec h id) = Except.error e →
        ObjectHelper.Get h invoke id = (none, some e)) ∧
      (invoke h.list.method.path (listRequestSpec h options) = Except.error e →
        ObjectHelper.List h invoke options = (none, some e)) := by
  intro h invoke object id options e
  refine ⟨?_, ?_, ?_⟩
  · intro he
    constructor
    · rw [Update_characterization_aux, he]
    · rw [Update_characterization_aux, he]
      rfl
  · intro he
    rw [Get_characterization_aux, he]
  · intro he
    rw [List_characterization_aux, he]

/-- C10 witness: on the concrete descriptor (whose response template is
blank) a failing transport makes `Update` return the empty object together
with the wrapped error, while `Get` and `List` return nothing. -/
theorem update_error_returns_blank_object_witness :
    ObjectHelper.Update demoClusterHelper failTransport [] =
      (some [], some ("failed to update object: " ++ "boom")) ∧
    ObjectHelper.Get demoClusterHelper failTransport "123" = (none, some "boom") ∧
    ObjectHelper.List demoClusterHelper failTransport { Filter := "" } =
      (none, some "boom") := by
  have h := update_error_returns_blank_object demoClusterHelper failTransport [] "123"
    { Filter := "" } "boom"
  exact ⟨(h.1 rfl).1, h.2.1 rfl, h.2.2 rfl⟩
